import Mathlib

/-!
# Verification of the wherobots-typescript-sdk connection engine

Shallow embedding, in Lean 4, of the session-establishment and
execution-orchestration engine of the Wherobots TypeScript SDK
(`src/api-utils.ts`, `src/connection.ts`, `src/schemas.ts`,
`src/constants.ts`), together with theorems settling the behavioral
claims made about it.

The embedding mirrors the source:
* the generic retry engine `asyncOperationWithRetry` becomes a
  fuel-indexed recursion `runRetry` over a deterministic oracle of
  per-attempt outcomes;
* the pure predicates (`shouldRetryForResiliency`,
  `isSessionInFinalState`, `backoffRetry`, the websocket retry
  predicate, the polling retry decision) are translated directly;
* the inbound-message handler of `Connection#waitForMessage` becomes a
  pure function `handleMessage` from a wait's expectation and a wire
  message to the action taken (ignore / reject / resolve), and a
  dispatch function folds it over a list of concurrently pending waits;
* `Connection#close` / `Connection#addWsListener` become a small state
  machine over a record of listener-accounting counters.

`Math.random()` is modelled by an explicit rational parameter `r` with
`0 ≤ r` and `r < 1`, matching the range of `Math.random()`.
-/

namespace Wherobots

/-- A thrown JavaScript `Error`, reduced to the two fields the engine
inspects: `name` (e.g. `"TimeoutError"`) and `message`. -/
structure JsError where
  name : String
  message : String
deriving DecidableEq, Repr

/-! ## `src/constants.ts` -/

/-- `SessionStatus` from `src/constants.ts`. -/
inductive SessionStatus where
  | PENDING
  | PREPARING
  | PREPARE_FAILED
  | REQUESTED
  | DEPLOYING
  | DEPLOY_FAILED
  | DEPLOYED
  | INITIALIZING
  | INIT_FAILED
  | READY
  | DESTROY_REQUESTED
  | DESTROYING
  | DESTROY_FAILED
  | DESTROYED
deriving DecidableEq, Repr

/-- `DataCompression` from `src/constants.ts`. -/
inductive DataCompression where
  | brotli
deriving DecidableEq, Repr

/-- `ResultsFormat` from `src/constants.ts`. -/
inductive ResultsFormat where
  | json
  | arrow
deriving DecidableEq, Repr

/-- `GeometryRepresentation` from `src/constants.ts`. -/
inductive GeometryRepresentation where
  | wkt
  | wkb
  | ewkt
  | ewkb
  | geojson
deriving DecidableEq, Repr

/-! ## `src/api-utils.ts`: session-state and backoff helpers -/

/-- `appMeta` of a session response (`AppMetaSchema` in `src/schemas.ts`). -/
structure AppMeta where
  url : String
deriving DecidableEq, Repr

/-- A session response that already validated against
`SessionResponseSchema` (`src/schemas.ts`): `{id, status, appMeta?,
traces, message}`.  `traces` is an arbitrary passthrough object and is
not inspected by the engine, so it is reduced to presence. -/
structure SessionResponse where
  id : String
  status : SessionStatus
  appMeta : Option AppMeta
  traces : Bool
  message : Option String
deriving DecidableEq, Repr

/-- `isSessionInFinalState` from `src/api-utils.ts`: a session is final
when its status is *not* one of the six in-progress statuses. -/
def isSessionInFinalState (session : SessionResponse) : Bool :=
  ! [SessionStatus.PENDING,
     SessionStatus.PREPARING,
     SessionStatus.REQUESTED,
     SessionStatus.DEPLOYING,
     SessionStatus.DEPLOYED,
     SessionStatus.INITIALIZING].contains session.status

/-- `jitter` from `src/api-utils.ts`: choose a number between 50% and
100% of the target delay.  `Math.random()` is the parameter `r`. -/
def jitter (delay : ℚ) (r : ℚ) : ℚ :=
  delay / 2 + (delay / 2) * r

/-- `backoffRetry` from `src/api-utils.ts`: the retry delay (ms) as a
function of how many attempts have been made, with jitter parameter
`r` standing for `Math.random()`. -/
def backoffRetry (attempts : ℕ) (r : ℚ) : ℚ :=
  if attempts ≤ 1 then jitter 1000 r
  else if attempts = 2 then jitter 2000 r
  else jitter 5000 r

/-- The base (un-jittered) delay that `backoffRetry` scales. -/
def baseDelay (attempts : ℕ) : ℚ :=
  if attempts ≤ 1 then 1000
  else if attempts = 2 then 2000
  else 5000

/-! ## `src/api-utils.ts`: the generic retry engine -/

/-- The error component of a settled attempt (`[error, result]` pair
produced by `performAttempt` in `asyncOperationWithRetry`). -/
def errOpt {E T : Type} : Except E T → Option E
  | .error e => some e
  | .ok _ => none

/-- The result component of a settled attempt. -/
def okOpt {E T : Type} : Except E T → Option T
  | .error _ => none
  | .ok r => some r

/-- `asyncOperationWithRetry` from `src/api-utils.ts`, embedded as a
fuel-indexed recursion.

* `A n` is the outcome of the `n`-th `performAttempt` (the operation
  either resolves with a result or throws an error; `performAttempt`
  catches the error, so an attempt always settles).
* `R n err res` is `options.retryOn(n, err, res)`; it is `Except`-valued
  because the caller-supplied decision may itself throw, in which case
  the whole invocation rejects with that error (the `await` of
  `retryOn` in the `while` condition is not guarded by any catch).
* `D n` is `options.retryDelay(n)`.

The value is `some (delays, outcome)`: the list of backoff delays slept
between attempts, and the settlement — `.error e` when the engine
rejects, `.ok r` when it resolves.  `none` means the fuel was exhausted
while the decision kept asking for more attempts (the source loop would
still be running). -/
def runRetry {E T : Type} (A : ℕ → Except E T)
    (R : ℕ → Option E → Option T → Except E Bool)
    (D : ℕ → ℚ) : ℕ → ℕ → Option (List ℚ × Except E T)
  | fuel, n =>
    match R n (errOpt (A n)) (okOpt (A n)), fuel with
    | .error e, _ => some ([], .error e)
    | .ok false, _ => some ([], A n)
    | .ok true, 0 => none
    | .ok true, fuel' + 1 =>
      (runRetry A R D fuel' (n + 1)).map fun p => (D n :: p.1, p.2)

/-! ## `src/api-utils.ts`: the resiliency retry predicate -/

/-- An HTTP `Response` as far as the engine inspects it: `ok`,
`status`, `statusText`, and the JSON body *as validated by
`SessionResponseSchema`* (`none` when the body is missing, unparseable,
or fails validation). -/
structure HttpResponse where
  ok : Bool
  status : ℕ
  statusText : String
  sessionBody : Option SessionResponse
deriving DecidableEq, Repr

/-- `RETRYABLE_HTTP_STATUS_CODES` from `src/api-utils.ts`. -/
def RETRYABLE_HTTP_STATUS_CODES : List ℕ := [502, 503]

/-- `NUM_RESLIENCY_RETRIES` from `src/api-utils.ts`. -/
def NUM_RESLIENCY_RETRIES : ℕ := 3

/-- `shouldRetryForResiliency` from `src/api-utils.ts`. -/
def shouldRetryForResiliency (attempt : ℕ) (error : Option JsError)
    (result : Option HttpResponse) : Bool :=
  if NUM_RESLIENCY_RETRIES ≤ attempt then false
  else if (match result with
           | some r => RETRYABLE_HTTP_STATUS_CODES.contains r.status
           | none => false) then true
  else if (match error with
           | some e => e.name == "TimeoutError"
           | none => false) then true
  else false

/-- `parseResponse` from `src/api-utils.ts`, specialized to
`SessionResponseSchema`: throws `Request failed` on a non-ok response,
throws `Invalid API response` when the body fails schema validation,
and otherwise returns the validated session. -/
def parseSessionResponse (res : HttpResponse) : Except JsError SessionResponse :=
  if !res.ok then
    .error ⟨"Error", "Request failed: " ++ res.statusText⟩
  else
    match res.sessionBody with
    | some session => .ok session
    | none => .error ⟨"Error", "Invalid API response"⟩

/-! ## `src/connection.ts`: the polling retry decision

`establishSession` passes to `asyncOperationWithRetry` a `retryOn`
closure over a mutable counter `numFailedAttempts` that is incremented
only when the attempt is retried for resiliency.  The closure is
embedded as a function of the current counter value returning the
decision together with the updated counter; it is `Except`-valued
because `parseResponse` inside it may throw. -/

/-- The `retryOn` closure of the polling phase of
`Connection#establishSession` (`src/connection.ts`). -/
def pollingRetryOn (numFailedAttempts : ℕ) (error : Option JsError)
    (res : Option HttpResponse) : Except JsError (Bool × ℕ) :=
  if shouldRetryForResiliency numFailedAttempts error res then
    .ok (true, numFailedAttempts + 1)
  else
    match error, res with
    | none, some r =>
      (parseSessionResponse r).map fun session =>
        (!isSessionInFinalState session, numFailedAttempts)
    | _, _ => .ok (false, numFailedAttempts)

/-! ## `src/connection.ts`: opening the websocket and its retry decision -/

/-- The first settling event observed by one `openWebSocket` attempt:
the socket's `open` event, its `error` event, or its `close` event. -/
inductive SocketAttemptEvent where
  | opened
  | errored
  | closedEvt
deriving DecidableEq, Repr

/-- `Connection#openWebSocket` (`src/connection.ts`): rejects with
`new Error(e.type)` when the combined abort signal is (or becomes)
aborted — the abort event's `type` is `"abort"` — or when an `error` or
`close` event arrives before `open`; resolves when `open` arrives
first. -/
def openWebSocket (signalAborted : Bool) (evt : SocketAttemptEvent) :
    Except JsError Unit :=
  if signalAborted then .error ⟨"Error", "abort"⟩
  else
    match evt with
    | .opened => .ok ()
    | .errored => .error ⟨"Error", "error"⟩
    | .closedEvt => .error ⟨"Error", "close"⟩

/-- The `retryOn` closure that `Connection#connectToWebSocket` passes
to `asyncOperationWithRetry` (`src/connection.ts`): retry whenever the
attempt produced an error and the attempt index is below
`NUM_RESLIENCY_RETRIES`. -/
def connectRetryOn (attempt : ℕ) (error : Option JsError) : Bool :=
  match error with
  | some _ => decide (attempt < NUM_RESLIENCY_RETRIES)
  | none => false

/-! ## `src/constants.ts` / semver: protocol versions -/

/-- A plain `major.minor.patch` semantic version (every protocol
version the program manipulates — `PROTOCOL_VERSION = "1.0.0"`,
`MIN_PROTOCOL_VERSION_FOR_CANCEL = "1.1.0"`, and test-harness
overrides — is of this shape; prerelease tags do not occur). -/
structure Semver where
  major : ℕ
  minor : ℕ
  patch : ℕ
deriving DecidableEq, Repr

/-- `semver.gte a b`: `a ≥ b` in semantic-version (lexicographic)
order. -/
def semverGte (a b : Semver) : Bool :=
  if a.major ≠ b.major then decide (b.major < a.major)
  else if a.minor ≠ b.minor then decide (b.minor < a.minor)
  else decide (b.patch ≤ a.patch)

/-- `MIN_PROTOCOL_VERSION_FOR_CANCEL = "1.1.0"` from
`src/constants.ts`. -/
def MIN_PROTOCOL_VERSION_FOR_CANCEL : Semver := ⟨1, 1, 0⟩

/-- `PROTOCOL_VERSION = "1.0.0"` from `src/connection.ts`. -/
def PROTOCOL_VERSION : Semver := ⟨1, 0, 0⟩

/-! ## `src/schemas.ts`: wire events -/

/-- An outbound channel message (`ExecuteSQLEvent`,
`RetrieveResultsEvent`, `CancelExecutionEvent` in `src/schemas.ts`). -/
inductive OutEvent where
  | executeSql (execution_id : String) (statement : String)
  | retrieveResults (execution_id : String) (geometry : GeometryRepresentation)
  | cancel (execution_id : String)
deriving DecidableEq, Repr

/-- An effect issued against the channel: sending a message, or
closing it. -/
inductive ChannelCmd where
  | send (e : OutEvent)
  | closeChannel
deriving DecidableEq, Repr

/-- The `results` object of `ExecutionResultEventSchema`
(`src/schemas.ts`); `result_bytes` is an opaque byte buffer. -/
structure ResultsPayload where
  result_bytes : List ℕ
  compression : DataCompression
  format : ResultsFormat
  geometry : GeometryRepresentation
  geo_columns : List String
deriving DecidableEq, Repr

/-- A decoded inbound message (the JSON value of a text frame, or the
CBOR value of a binary frame), holding the fields the schemas of
`src/schemas.ts` inspect.  Absent or wrongly-typed fields are `none`;
zod strips fields a schema does not mention, so extra fields never
invalidate a parse. -/
structure RawEvent where
  kind : String
  execution_id : Option String
  state : Option String
  message : Option String
  results : Option ResultsPayload
deriving DecidableEq, Repr

/-- `ExecutionIdSchema` (`src/schemas.ts`): a string of length 1 to
255. -/
def validExecutionId (s : String) : Bool :=
  1 ≤ s.length && s.length ≤ 255

/-- `ErrorEventSchema.safeParse` (`src/schemas.ts`): succeeds exactly
on `{kind: "error", execution_id, message}`. -/
def errorEventParse (v : RawEvent) : Option (String × String) :=
  match v.execution_id, v.message with
  | some id, some m =>
    if v.kind == "error" && validExecutionId id then some (id, m) else none
  | _, _ => none

/-- The schema a pending wait expects: `StateUpdatedEventSchema` for
the first round-trip of `execute()`, `ExecutionResultEventSchema` for
the second. -/
inductive WaitSchema where
  | stateUpdated
  | executionResult
deriving DecidableEq, Repr

/-- A successfully parsed expected event. -/
inductive ParsedEvent where
  | stateUpdatedEv (execution_id : String)
  | executionResultEv (execution_id : String) (results : ResultsPayload)
deriving DecidableEq, Repr

/-- The `execution_id` carried by a parsed event. -/
def ParsedEvent.executionId : ParsedEvent → String
  | .stateUpdatedEv id => id
  | .executionResultEv id _ => id

/-- `schema.parse` for the two expected schemas (`src/schemas.ts`):
`StateUpdatedEventSchema` requires `kind: "state_updated"` and
`state: "succeeded"`; `ExecutionResultEventSchema` requires
`kind: "execution_result"`, `state: "succeeded"` and a well-formed
`results` object. -/
def schemaParse : WaitSchema → RawEvent → Option ParsedEvent
  | .stateUpdated, v =>
    match v.execution_id, v.state with
    | some id, some st =>
      if v.kind == "state_updated" && st == "succeeded" && validExecutionId id
      then some (.stateUpdatedEv id) else none
    | _, _ => none
  | .executionResult, v =>
    match v.execution_id, v.state, v.results with
    | some id, some st, some res =>
      if v.kind == "execution_result" && st == "succeeded" && validExecutionId id
      then some (.executionResultEv id res) else none
    | _, _, _ => none

/-- An inbound wire frame as `handleMessage` sees it: a text frame
(whose payload is `none` when `JSON.parse` throws) or a binary frame
(whose payload is `none` when the CBOR decode throws). -/
inductive WireData where
  | text (v : Option RawEvent)
  | binary (v : Option RawEvent)
deriving DecidableEq, Repr

/-- The decoded payload of a frame, if any. -/
def WireData.dataOf : WireData → Option RawEvent
  | .text v => v
  | .binary v => v

/-- The externally visible action `handleMessage` takes on the pending
wait it serves. -/
inductive HandleAction where
  | ignore
  | reject
  | resolveWith (p : ParsedEvent)
deriving DecidableEq, Repr

/-- The `handleMessage` listener installed by
`Connection#waitForMessage` (`src/connection.ts`), for the wait
expecting `schema` with correlation id `executionId`, applied to one
inbound frame.

Mirrors the source control flow: a *text* frame is first checked
against `ErrorEventSchema`; on success the wait is cleaned up and
rejected — the error event's own `execution_id` is not compared to
`executionId`, and although execution continues past the `reject`, the
promise is already settled, so the outcome is the rejection.  Otherwise
the frame is parsed with the expected schema and resolves the wait only
when the parse succeeds and the `execution_id` matches; every other
frame (parse failure anywhere is caught) is ignored. -/
def handleMessage (schema : WaitSchema) (executionId : String)
    (d : WireData) : HandleAction :=
  match d with
  | .text none => .ignore
  | .text (some v) =>
    if (errorEventParse v).isSome then .reject
    else
      match schemaParse schema v with
      | some p => if p.executionId == executionId then .resolveWith p else .ignore
      | none => .ignore
  | .binary none => .ignore
  | .binary (some v) =>
    match schemaParse schema v with
    | some p => if p.executionId == executionId then .resolveWith p else .ignore
    | none => .ignore

/-! ## `src/connection.ts`: concurrently pending waits -/

/-- How a pending wait has settled, if at all. -/
inductive WaitStatus where
  | pending
  | resolved (p : ParsedEvent)
  | rejectedWith (msg : String)
deriving DecidableEq, Repr

/-- One pending wait created by `Connection#waitForMessage`: its
correlation id, its expected schema, and its settlement state. -/
structure PendingWait where
  executionId : String
  schema : WaitSchema
  status : WaitStatus
deriving DecidableEq, Repr

/-- Delivery of one inbound frame to one wait's listener.  A settled
wait already ran its `cleanup()` (deregistering the listener), so the
frame does not reach it. -/
def stepWait (d : WireData) (w : PendingWait) : PendingWait :=
  match w.status with
  | .pending =>
    match handleMessage w.schema w.executionId d with
    | .ignore => w
    | .reject => { w with status := .rejectedWith "Error event received" }
    | .resolveWith p => { w with status := .resolved p }
  | _ => w

/-- Delivery of a sequence of inbound frames to every pending wait:
each wait's listener independently inspects each frame, in arrival
order. -/
def deliverAll (waits : List PendingWait) (msgs : List WireData) :
    List PendingWait :=
  msgs.foldl (fun acc d => acc.map (stepWait d)) waits

/-! ## `src/connection.ts`: cancellation of a pending wait -/

/-- `sendCancellation` inside `Connection#waitForMessage`
(`src/connection.ts`): when the negotiated protocol version is at least
`MIN_PROTOCOL_VERSION_FOR_CANCEL` (compared with `semver.gte`), send a
`cancel` event carrying the wait's correlation id; otherwise send
nothing. -/
def sendCancellation (protocolVersion : Semver) (executionId : String) :
    List ChannelCmd :=
  if semverGte protocolVersion MIN_PROTOCOL_VERSION_FOR_CANCEL then
    [ChannelCmd.send (OutEvent.cancel executionId)]
  else []

/-- The abort path of `Connection#waitForMessage`: when the combined
abort signal fires (or was already aborted on entry), `sendCancellation`
runs and the wait rejects with `Error("Execution aborted")`; the
channel is neither written to otherwise nor closed. -/
def abortWait (protocolVersion : Semver) (executionId : String) :
    List ChannelCmd × WaitStatus :=
  (sendCancellation protocolVersion executionId,
   .rejectedWith "Execution aborted")

/-- `Connection#execute` cancelled while its first wait (the
`state_updated` round-trip) is pending: the channel traffic for the
operation is the initial `execute_sql` event followed by whatever the
abort path emits, and the call settles with the abort rejection. -/
def executeCancelledBeforeFirstRoundTrip (protocolVersion : Semver)
    (executionId statement : String) : List ChannelCmd × WaitStatus :=
  let aborted := abortWait protocolVersion executionId
  (ChannelCmd.send (OutEvent.executeSql executionId statement) :: aborted.1,
   aborted.2)

/-- Is this command the sending of a `cancel` event for `id`? -/
def isCancelFor (id : String) : ChannelCmd → Bool
  | .send (.cancel i) => i == id
  | _ => false

/-! ## `src/connection.ts`: listener accounting and `close()` -/

/-- The listener-accounting state of a `Connection` after its channel
is established: whether `this.ws` is non-null, the length of
`this.wsListeners`, whether `sessionAbortController` has been aborted,
and the running totals of `addEventListener` / `removeEventListener`
calls issued against the channel. -/
structure ConnState where
  ws : Bool
  wsListeners : ℕ
  aborted : Bool
  registrations : ℕ
  removals : ℕ
deriving DecidableEq, Repr

/-- Listener-affecting operations between `connect` and `close`:
`register` is a successful `Connection#addWsListener` (it throws,
changing nothing, when `this.ws` is null); `cleanup` is the cleanup
closure of a settling wait (`this.ws?.removeEventListener`, a no-op
when `this.ws` is null; it does not shrink `this.wsListeners`). -/
inductive ConnStep where
  | register
  | cleanup
deriving DecidableEq, Repr

/-- Effect of one step on the accounting state. -/
def applyStep (s : ConnState) : ConnStep → ConnState
  | .register =>
    if s.ws then
      { s with wsListeners := s.wsListeners + 1,
               registrations := s.registrations + 1 }
    else s
  | .cleanup =>
    if s.ws then { s with removals := s.removals + 1 } else s

/-- Effect of a sequence of steps. -/
def applySteps (s : ConnState) (steps : List ConnStep) : ConnState :=
  steps.foldl applyStep s

/-- `Connection#close` (`src/connection.ts`): abort the session
signal; when the channel is present, remove every tracked listener from
it (one `removeEventListener` call per entry of `this.wsListeners`) and
close it; null out the channel and clear the tracked-listener list. -/
def close (s : ConnState) : ConnState :=
  { s with aborted := true,
           removals := if s.ws then s.removals + s.wsListeners else s.removals,
           ws := false,
           wsListeners := 0 }

/-- The `connect`-time registrations: `connectToWebSocket` registers
the long-lived `error` and `close` listeners through `addWsListener`,
and `openWebSocket` on its successful attempt added its three
once-listeners and removed them again in its `cleanup`. -/
def initConnState : ConnState :=
  { ws := true, wsListeners := 2, aborted := false,
    registrations := 5, removals := 3 }

/-- The guard at the top of `Connection#execute`: with a null channel
it throws `WebSocket is not open` before building the execution id or
sending anything; otherwise the first channel effect is sending the
`execute_sql` event. -/
def executeAttempt (s : ConnState) (executionId statement : String) :
    List ChannelCmd × Except JsError Unit :=
  if !s.ws then ([], .error ⟨"Error", "WebSocket is not open"⟩)
  else ([ChannelCmd.send (OutEvent.executeSql executionId statement)], .ok ())

/-- Accounting invariant maintained between `connect` and `close`:
every tracked listener will still be removed, and a null channel
tracks no listeners. -/
def ConnInv (s : ConnState) : Prop :=
  s.registrations ≤ s.removals + s.wsListeners ∧ (s.ws = false → s.wsListeners = 0)

/-! ## Theorems -/

/-- C6: the resiliency retry predicate returns true exactly when the
attempt index is strictly below the cap of 3 and either the HTTP
result's status is 502 or 503 or the error is a timeout
(`name = "TimeoutError"`); every other error or result is fatal
immediately. -/
theorem shouldRetryForResiliency_spec :
    ∀ (attempt : ℕ) (error : Option JsError) (result : Option HttpResponse),
      shouldRetryForResiliency attempt error result = true ↔
        (attempt < 3 ∧
          ((∃ resp, result = some resp ∧ (resp.status = 502 ∨ resp.status = 503)) ∨
           (∃ err, error = some err ∧ err.name = "TimeoutError"))) := by
  intro attempt error result
  unfold shouldRetryForResiliency NUM_RESLIENCY_RETRIES RETRYABLE_HTTP_STATUS_CODES
  by_cases ha : 3 ≤ attempt
  · rw [if_pos ha]
    simp
    omega
  · rw [if_neg ha]
    have ha' : attempt < 3 := by omega
    rcases result with _ | resp <;> rcases error with _ | err <;> simp [ha']

/-- C8: for every attempt index the backoff delay is the base delay
scaled by the jitter factor `(1 + r) / 2 ∈ [1/2, 1]`, where the base
delay is 1000 ms for attempts 0 and 1, 2000 ms for attempt 2 and
5000 ms from attempt 3 on; hence the delay always lies between half
the base delay and the base delay. -/
theorem backoffRetry_spec (n : ℕ) (r : ℚ) (h0 : 0 ≤ r) (h1 : r < 1) :
    backoffRetry n r = baseDelay n * ((1 + r) / 2) ∧
    baseDelay n / 2 ≤ backoffRetry n r ∧
    backoffRetry n r ≤ baseDelay n ∧
    (1 / 2 : ℚ) ≤ (1 + r) / 2 ∧ (1 + r) / 2 ≤ 1 ∧
    (n = 0 ∨ n = 1 → baseDelay n = 1000) ∧
    (n = 2 → baseDelay n = 2000) ∧
    (3 ≤ n → baseDelay n = 5000) := by
  have hbase : backoffRetry n r = jitter (baseDelay n) r := by
    by_cases hn1 : n ≤ 1 <;> by_cases hn2 : n = 2 <;>
      simp [backoffRetry, baseDelay, hn1, hn2]
  have hpos : (0 : ℚ) < baseDelay n := by
    unfold baseDelay
    split
    · norm_num
    · split <;> norm_num
  have hjit : jitter (baseDelay n) r = baseDelay n * ((1 + r) / 2) := by
    unfold jitter; ring
  refine ⟨hbase.trans hjit, ?_, ?_, by linarith, by linarith, ?_, ?_, ?_⟩
  · rw [hbase]; unfold jitter; nlinarith
  · rw [hbase]; unfold jitter; nlinarith
  · rintro (rfl | rfl) <;> rfl
  · rintro rfl; rfl
  · intro hn
    unfold baseDelay
    rw [if_neg (by omega), if_neg (by omega)]

/-- Witness for `backoffRetry_spec` at attempt 0 with jitter parameter
1/2. -/
theorem backoffRetry_spec_witness :
    0 ≤ (1/2 : ℚ) ∧ (1/2 : ℚ) < 1 ∧
      (backoffRetry 0 (1/2) = baseDelay 0 * ((1 + 1/2) / 2) ∧
       baseDelay 0 / 2 ≤ backoffRetry 0 (1/2) ∧
       backoffRetry 0 (1/2) ≤ baseDelay 0 ∧
       (1 / 2 : ℚ) ≤ (1 + 1/2) / 2 ∧ (1 + 1/2 : ℚ) / 2 ≤ 1 ∧
       (0 = 0 ∨ 0 = 1 → baseDelay 0 = 1000) ∧
       (0 = 2 → baseDelay 0 = 2000) ∧
       (3 ≤ 0 → baseDelay 0 = 5000)) :=
  ⟨by norm_num, by norm_num, backoffRetry_spec 0 (1/2) (by norm_num) (by norm_num)⟩

/-- C3 counterexample: an attempt rejected because the cancellation
signal was triggered (the `openWebSocket` promise rejects with
`Error("abort")` when the combined signal is aborted) is nevertheless
retried by the channel-connect retry decision, contradicting the claim
that a cancellation-triggered rejection is never retried. -/
theorem connectRetry_retries_on_abort :
    openWebSocket true SocketAttemptEvent.opened =
      Except.error ⟨"Error", "abort"⟩ ∧
    connectRetryOn 0 (some ⟨"Error", "abort"⟩) = true :=
  ⟨rfl, rfl⟩

/-- C3 amended: the channel-connect retry decision retries exactly
when the attempt rejected with an error — of any class, including
cancellation- and timeout-triggered rejections — and the attempt index
is below the cap of 3; a successful attempt is never retried. -/
theorem connectRetryOn_spec :
    ∀ (attempt : ℕ) (err : JsError),
      (connectRetryOn attempt (some err) = true ↔ attempt < 3) ∧
      connectRetryOn attempt none = false := by
  intro attempt err
  exact ⟨by simp [connectRetryOn, NUM_RESLIENCY_RETRIES], rfl⟩

/-- C4: when the cancellation signal of an in-flight `execute()` fires
while a round-trip wait is pending, the wait rejects with
`Execution aborted`; the abort path sends exactly one `cancel` message
carrying the operation's correlation id when the negotiated protocol
version is `≥ 1.1.0` in semantic-version order, and none otherwise (in
particular none under the default protocol version 1.0.0); the channel
is never closed by the abort path. -/
theorem cancellation_spec :
    ∀ (v : Semver) (executionId statement : String),
      (abortWait v executionId).2 = .rejectedWith "Execution aborted" ∧
      ((executeCancelledBeforeFirstRoundTrip v executionId statement).1.filter
          (isCancelFor executionId)).length =
        (if semverGte v MIN_PROTOCOL_VERSION_FOR_CANCEL then 1 else 0) ∧
      semverGte PROTOCOL_VERSION MIN_PROTOCOL_VERSION_FOR_CANCEL = false ∧
      ChannelCmd.closeChannel ∉
        (executeCancelledBeforeFirstRoundTrip v executionId statement).1 := by
  intro v executionId statement
  refine ⟨rfl, ?_, rfl, ?_⟩
  · by_cases h : semverGte v MIN_PROTOCOL_VERSION_FOR_CANCEL <;>
      simp [executeCancelledBeforeFirstRoundTrip, abortWait, sendCancellation,
            isCancelFor, h]
  · by_cases h : semverGte v MIN_PROTOCOL_VERSION_FOR_CANCEL <;>
      simp [executeCancelledBeforeFirstRoundTrip, abortWait, sendCancellation, h]

/-- C7: the polling retry decision continues exactly when the
resiliency conditions hold — judged against the dedicated failure
counter, which is incremented precisely in that case — or when the
response parses to a session whose status is not terminal; the
terminal set is exactly the complement of the six in-progress
statuses, so `READY` and every failure/destroy status ends polling. -/
theorem pollingRetryOn_spec :
    ∀ (n : ℕ) (error : Option JsError) (res : Option HttpResponse),
      ((∃ c, pollingRetryOn n error res = .ok (true, c)) ↔
        (shouldRetryForResiliency n error res = true ∨
         ∃ resp session, error = none ∧ res = some resp ∧
           parseSessionResponse resp = .ok session ∧
           isSessionInFinalState session = false)) ∧
      ((∃ b, pollingRetryOn n error res = .ok (b, n + 1)) ↔
        shouldRetryForResiliency n error res = true) ∧
      (∀ session : SessionResponse,
        isSessionInFinalState session = true ↔
          session.status ∈ [SessionStatus.PREPARE_FAILED,
            SessionStatus.DEPLOY_FAILED, SessionStatus.INIT_FAILED,
            SessionStatus.READY, SessionStatus.DESTROY_REQUESTED,
            SessionStatus.DESTROYING, SessionStatus.DESTROY_FAILED,
            SessionStatus.DESTROYED]) := by
  intro n error res
  refine ⟨?_, ?_, ?_⟩
  · by_cases hr : shouldRetryForResiliency n error res = true
    · simp [pollingRetryOn, hr]
    · rcases error with _ | err
      · rcases res with _ | resp
        · simp [pollingRetryOn, hr]
        · cases hp : parseSessionResponse resp with
          | error e => simp [pollingRetryOn, hr, Except.map, hp]
          | ok s => simp [pollingRetryOn, hr, Except.map, hp]
      · simp [pollingRetryOn, hr]
  · by_cases hr : shouldRetryForResiliency n error res = true
    · simp [pollingRetryOn, hr]
    · rcases error with _ | err
      · rcases res with _ | resp
        · simp [pollingRetryOn, hr]
        · cases hp : parseSessionResponse resp with
          | error e => simp [pollingRetryOn, hr, Except.map, hp]
          | ok s => simp [pollingRetryOn, hr, Except.map, hp]
      · simp [pollingRetryOn, hr]
  · intro session
    rcases session with ⟨_, st, _, _, _⟩
    cases st <;> simp [isSessionInFinalState]

/-! ### Unfolding lemmas for the retry engine -/

theorem runRetry_of_decision_false {E T : Type} {A : ℕ → Except E T}
    {R : ℕ → Option E → Option T → Except E Bool} {D : ℕ → ℚ} {fuel n : ℕ}
    (h : R n (errOpt (A n)) (okOpt (A n)) = .ok false) :
    runRetry A R D fuel n = some ([], A n) := by
  cases fuel <;> (unfold runRetry; rw [h])

theorem runRetry_of_decision_error {E T : Type} {A : ℕ → Except E T}
    {R : ℕ → Option E → Option T → Except E Bool} {D : ℕ → ℚ} {fuel n : ℕ}
    {e : E} (h : R n (errOpt (A n)) (okOpt (A n)) = .error e) :
    runRetry A R D fuel n = some ([], .error e) := by
  cases fuel <;> (unfold runRetry; rw [h])

theorem runRetry_of_decision_true {E T : Type} {A : ℕ → Except E T}
    {R : ℕ → Option E → Option T → Except E Bool} {D : ℕ → ℚ} {fuel n : ℕ}
    (h : R n (errOpt (A n)) (okOpt (A n)) = .ok true) :
    runRetry A R D (fuel + 1) n =
      (runRetry A R D fuel (n + 1)).map fun p => (D n :: p.1, p.2) := by
  conv_lhs => unfold runRetry
  rw [h]

/-- The engine run when the decision asks for `k` more attempts and
then stops: the delays slept are `D n, …, D (n + k - 1)` and the run
settles with the outcome of attempt `n + k`. -/
theorem runRetry_settles {E T : Type} (A : ℕ → Except E T)
    (R : ℕ → Option E → Option T → Except E Bool) (D : ℕ → ℚ) (k : ℕ) :
    ∀ (n fuel : ℕ),
      (∀ i, i < k → R (n + i) (errOpt (A (n + i))) (okOpt (A (n + i))) = .ok true) →
      R (n + k) (errOpt (A (n + k))) (okOpt (A (n + k))) = .ok false →
      k ≤ fuel →
      runRetry A R D fuel n =
        some ((List.range k).map (fun i => D (n + i)), A (n + k)) := by
  induction k with
  | zero =>
    intro n fuel _ hfalse _
    simpa using @runRetry_of_decision_false E T A R D fuel n
      (by simpa using hfalse)
  | succ k ih =>
    intro n fuel htrue hfalse hfuel
    obtain ⟨fuel', rfl⟩ : ∃ f, fuel = f + 1 := ⟨fuel - 1, by omega⟩
    have h0 : R n (errOpt (A n)) (okOpt (A n)) = .ok true := by
      simpa using htrue 0 k.succ_pos
    rw [runRetry_of_decision_true h0]
    have ih' := ih (n + 1) fuel'
      (fun i hi => by
        have := htrue (i + 1) (by omega)
        simpa [show n + (i + 1) = n + 1 + i by omega] using this)
      (by simpa [show n + (k + 1) = n + 1 + k by omega] using hfalse)
      (by omega)
    rw [ih']
    have hlist : (List.range (k + 1)).map (fun i => D (n + i)) =
        D n :: (List.range k).map (fun i => D (n + 1 + i)) := by
      rw [List.range_succ_eq_map, List.map_cons, List.map_map]
      refine congrArg₂ List.cons rfl ?_
      refine List.map_congr_left fun i _ => ?_
      simp only [Function.comp_apply]
      exact congrArg D (by omega)
    have hA : A (n + (k + 1)) = A (n + 1 + k) := congrArg A (by omega)
    rw [Option.map_some', hlist, hA]

/-- The engine run when the decision asks for `k` more attempts and
then itself throws: the run rejects with the thrown error, regardless
of the outcome of attempt `n + k`. -/
theorem runRetry_decision_throws {E T : Type} (A : ℕ → Except E T)
    (R : ℕ → Option E → Option T → Except E Bool) (D : ℕ → ℚ) (k : ℕ) :
    ∀ (n fuel : ℕ) (e : E),
      (∀ i, i < k → R (n + i) (errOpt (A (n + i))) (okOpt (A (n + i))) = .ok true) →
      R (n + k) (errOpt (A (n + k))) (okOpt (A (n + k))) = .error e →
      k ≤ fuel →
      runRetry A R D fuel n =
        some ((List.range k).map (fun i => D (n + i)), .error e) := by
  induction k with
  | zero =>
    intro n fuel e _ herr _
    simpa using @runRetry_of_decision_error E T A R D fuel n e
      (by simpa using herr)
  | succ k ih =>
    intro n fuel e htrue herr hfuel
    obtain ⟨fuel', rfl⟩ : ∃ f, fuel = f + 1 := ⟨fuel - 1, by omega⟩
    have h0 : R n (errOpt (A n)) (okOpt (A n)) = .ok true := by
      simpa using htrue 0 k.succ_pos
    rw [runRetry_of_decision_true h0]
    have ih' := ih (n + 1) fuel' e
      (fun i hi => by
        have := htrue (i + 1) (by omega)
        simpa [show n + (i + 1) = n + 1 + i by omega] using this)
      (by simpa [show n + (k + 1) = n + 1 + k by omega] using herr)
      (by omega)
    rw [ih']
    have hlist : (List.range (k + 1)).map (fun i => D (n + i)) =
        D n :: (List.range k).map (fun i => D (n + 1 + i)) := by
      rw [List.range_succ_eq_map, List.map_cons, List.map_map]
      refine congrArg₂ List.cons rfl ?_
      refine List.map_congr_left fun i _ => ?_
      simp only [Function.comp_apply]
      exact congrArg D (by omega)
    rw [Option.map_some', hlist]

/-- C5: for every operation and options, the engine consults the retry
decision after each attempt with the 0-based attempt index and the
attempt's error-or-result pair; while the decision returns true it
sleeps `retryDelay(attemptIndex)` and attempts again, and when the
decision returns false it settles with the last attempt's outcome —
rejecting with its error when it failed, resolving with its result
otherwise. -/
theorem asyncOperationWithRetry_spec {E T : Type} (A : ℕ → Except E T)
    (R : ℕ → Option E → Option T → Except E Bool) (D : ℕ → ℚ) (k fuel : ℕ)
    (htrue : ∀ i, i < k → R i (errOpt (A i)) (okOpt (A i)) = .ok true)
    (hfalse : R k (errOpt (A k)) (okOpt (A k)) = .ok false)
    (hfuel : k ≤ fuel) :
    runRetry A R D fuel 0 = some ((List.range k).map D, A k) ∧
    (∀ e, A k = .error e →
      runRetry A R D fuel 0 = some ((List.range k).map D, .error e)) ∧
    (∀ t, A k = .ok t →
      runRetry A R D fuel 0 = some ((List.range k).map D, .ok t)) := by
  have h := runRetry_settles A R D k 0 fuel
    (fun i hi => by simpa using htrue i hi) (by simpa using hfalse) hfuel
  simp only [Nat.zero_add] at h
  have hD : (List.range k).map (fun i => D i) = (List.range k).map D := rfl
  rw [hD] at h
  exact ⟨h, fun e he => by rw [h, he], fun t ht => by rw [h, ht]⟩

/-- Witness for `asyncOperationWithRetry_spec`: an operation that
fails twice and then succeeds, with a decision that retries exactly
the first two attempts. -/
theorem asyncOperationWithRetry_spec_witness :
    runRetry (fun n => if n < 2 then Except.error "boom" else Except.ok 42)
      (fun n _ _ => Except.ok (decide (n < 2))) (fun n => (n : ℚ)) 5 0 =
      some ([0, 1], Except.ok 42) := by
  have h := (asyncOperationWithRetry_spec
    (fun n => if n < 2 then Except.error "boom" else Except.ok 42)
    (fun n _ _ => Except.ok (decide (n < 2))) (fun n => (n : ℚ)) 2 5
    (fun i hi => by simp [hi]) rfl (by omega)).1
  simpa using h

/-- C10: when the caller-supplied retry decision itself throws after
an attempt, the engine performs no further attempts and the whole
invocation rejects with the thrown error, regardless of whether the
last attempt succeeded; in particular the polling decision of
`establishSession` throws `Invalid API response` on a malformed
response body that is not a resiliency case, making it immediately
fatal instead of retried. -/
theorem retryDecision_throw_spec {E T : Type} (A : ℕ → Except E T)
    (R : ℕ → Option E → Option T → Except E Bool) (D : ℕ → ℚ)
    (k fuel : ℕ) (e : E)
    (htrue : ∀ i, i < k → R i (errOpt (A i)) (okOpt (A i)) = .ok true)
    (hthrow : R k (errOpt (A k)) (okOpt (A k)) = .error e)
    (hfuel : k ≤ fuel) :
    runRetry A R D fuel 0 = some ((List.range k).map D, .error e) ∧
    (∀ (m : ℕ) (resp : HttpResponse), resp.ok = true →
      resp.sessionBody = none →
      shouldRetryForResiliency m none (some resp) = false →
      pollingRetryOn m none (some resp) =
        .error ⟨"Error", "Invalid API response"⟩) := by
  constructor
  · have h := runRetry_decision_throws A R D k 0 fuel e
      (fun i hi => by simpa using htrue i hi) (by simpa using hthrow) hfuel
    simpa using h
  · intro m resp hok hbody hres
    simp [pollingRetryOn, hres, parseSessionResponse, hok, hbody, Except.map]

/-- Witness for `retryDecision_throw_spec`: the decision throws after
the second attempt even though that attempt succeeded, and a malformed
200-response makes the polling decision throw. -/
theorem retryDecision_throw_spec_witness :
    runRetry (fun _ => Except.ok 7)
      (fun n _ _ => if n < 1 then Except.ok true else Except.error "parse failed")
      (fun n => (n : ℚ)) 3 0 = some ([0], Except.error "parse failed") ∧
    pollingRetryOn 0 none (some ⟨true, 200, "OK", none⟩) =
      Except.error ⟨"Error", "Invalid API response"⟩ := by
  have h := retryDecision_throw_spec (fun _ => Except.ok 7)
    (fun n _ _ => if n < 1 then Except.ok true else Except.error "parse failed")
    (fun n => (n : ℚ)) 1 3 "parse failed" (fun i hi => by simp [hi]) rfl (by omega)
  exact ⟨by simpa using h.1, h.2 0 ⟨true, 200, "OK", none⟩ rfl rfl (by decide)⟩

/-! ### Message-handling claims -/

/-- The decoded JSON of the dedicated error event the server sends for
execution `exec-a` (the payload `simulateExecutionError` produces in
the repository's own test doubles). -/
def errorRawA : RawEvent :=
  { kind := "error", execution_id := some "exec-a", state := none,
    message := some "Error executing SQL", results := none }

/-- A decoded `execution_result` message for `id` carrying `res`. -/
def resultRaw (id : String) (res : ResultsPayload) : RawEvent :=
  { kind := "execution_result", execution_id := some id,
    state := some "succeeded", message := none, results := some res }

/-- A sample results payload. -/
def demoResultsOne : ResultsPayload :=
  { result_bytes := [1, 2, 3], compression := .brotli, format := .arrow,
    geometry := .ewkt, geo_columns := [] }

/-- A second, distinct sample results payload. -/
def demoResultsTwo : ResultsPayload :=
  { result_bytes := [4, 5], compression := .brotli, format := .arrow,
    geometry := .ewkt, geo_columns := ["geometry"] }

/-- C1 (evaluation at the failing input): the message listener of a
wait with correlation id `exec-b` receives the dedicated error event
whose `execution_id` is `exec-a` — a different operation — and rejects
its wait anyway: the error branch of `handleMessage` never compares
the error event's `execution_id` with the wait's.  Delivering that one
error event to two concurrently pending waits rejects both, so a
concurrently pending operation with a different correlation id is NOT
unaffected. -/
theorem errorEvent_rejects_unrelated_wait :
    handleMessage WaitSchema.executionResult "exec-b"
      (WireData.text (some errorRawA)) = .reject ∧
    deliverAll
      [⟨"exec-a", .executionResult, .pending⟩,
       ⟨"exec-b", .executionResult, .pending⟩]
      [WireData.text (some errorRawA)] =
      [⟨"exec-a", .executionResult, .rejectedWith "Error event received"⟩,
       ⟨"exec-b", .executionResult, .rejectedWith "Error event received"⟩] := by
  constructor <;> rfl

/-- C2 counterexample: a message that neither validates against the
wait's expected schema nor matches its correlation id (the dedicated
error event of a *different* operation) is not silently ignored — it
rejects the wait. -/
theorem nonMatching_errorEvent_not_ignored :
    handleMessage WaitSchema.stateUpdated "exec-b"
      (WireData.text (some errorRawA)) ≠ .ignore := by
  decide

theorem schemaParse_resultRaw (id : String) (res : ResultsPayload)
    (hv : validExecutionId id = true) :
    schemaParse .executionResult (resultRaw id res) =
      some (.executionResultEv id res) := by
  simp [schemaParse, resultRaw, hv]

theorem handleMessage_binary_result (eid id : String) (res : ResultsPayload)
    (hv : validExecutionId id = true) :
    handleMessage .executionResult eid (WireData.binary (some (resultRaw id res))) =
      if id == eid then .resolveWith (.executionResultEv id res) else .ignore := by
  simp only [handleMessage, schemaParse_resultRaw id res hv,
    ParsedEvent.executionId]

/-- C2 amended: an inbound message resolves a pending wait only if it
validates against the wait's expected schema and carries the wait's
correlation id; every non-matching or non-validating message — except
a text message that validates as a dedicated error event, which
rejects the wait regardless of the id it carries — is silently
ignored; consequently two concurrent `execute()` calls whose result
messages arrive in reverse order of submission each resolve with the
payload carrying their own correlation id, never the other's. -/
theorem waitResolution_correlation :
    (∀ (schema : WaitSchema) (eid : String) (d : WireData) (p : ParsedEvent),
      handleMessage schema eid d = .resolveWith p →
        p.executionId = eid ∧
        ∃ v, d.dataOf = some v ∧ schemaParse schema v = some p) ∧
    (∀ (schema : WaitSchema) (eid : String) (d : WireData),
      (∀ v, d = WireData.text (some v) → errorEventParse v = none) →
      (∀ v p, d.dataOf = some v → schemaParse schema v = some p →
        p.executionId ≠ eid) →
      handleMessage schema eid d = .ignore) ∧
    (∀ (a b : String) (ra rb : ResultsPayload),
      a ≠ b → validExecutionId a = true → validExecutionId b = true →
      deliverAll
        [⟨a, .executionResult, .pending⟩, ⟨b, .executionResult, .pending⟩]
        [WireData.binary (some (resultRaw b rb)),
         WireData.binary (some (resultRaw a ra))] =
        [⟨a, .executionResult, .resolved (.executionResultEv a ra)⟩,
         ⟨b, .executionResult, .resolved (.executionResultEv b rb)⟩]) := by
  refine ⟨?_, ?_, ?_⟩
  · intro schema eid d p h
    cases d with
    | text v =>
      cases v with
      | none => exact absurd h (by simp [handleMessage])
      | some w =>
        by_cases herr : (errorEventParse w).isSome = true
        · simp [handleMessage, herr] at h
        · have herr' : (errorEventParse w).isSome = false := by
            simpa using herr
          cases hp : schemaParse schema w with
          | none => simp [handleMessage, herr', hp] at h
          | some q =>
            by_cases hid : (q.executionId == eid) = true
            · simp only [handleMessage, herr', Bool.false_eq_true, if_false,
                hp, hid, if_true] at h
              cases h
              exact ⟨by simpa using hid, w, rfl, hp⟩
            · have hid' : (q.executionId == eid) = false := by simpa using hid
              simp [handleMessage, herr', hp, hid'] at h
    | binary v =>
      cases v with
      | none => exact absurd h (by simp [handleMessage])
      | some w =>
        cases hp : schemaParse schema w with
        | none => simp [handleMessage, hp] at h
        | some q =>
          by_cases hid : (q.executionId == eid) = true
          · simp only [handleMessage, hp, hid, if_true] at h
            cases h
            exact ⟨by simpa using hid, w, rfl, hp⟩
          · have hid' : (q.executionId == eid) = false := by simpa using hid
            simp [handleMessage, hp, hid'] at h
  · intro schema eid d herr hnomatch
    cases d with
    | text v =>
      cases v with
      | none => rfl
      | some w =>
        have h1 : errorEventParse w = none := herr w rfl
        simp only [handleMessage, h1, Option.isSome_none, Bool.false_eq_true,
          if_false]
        cases hp : schemaParse schema w with
        | none => rfl
        | some q =>
          have h2 : q.executionId ≠ eid := hnomatch w q rfl hp
          simp [h2]
    | binary v =>
      cases v with
      | none => rfl
      | some w =>
        simp only [handleMessage]
        cases hp : schemaParse schema w with
        | none => rfl
        | some q =>
          have h2 : q.executionId ≠ eid := hnomatch w q rfl hp
          simp [h2]
  · intro a b ra rb hne hva hvb
    have hba : (b == a) = false := by
      simp only [beq_eq_false_iff_ne]; exact fun h => hne h.symm
    have e1 : stepWait (WireData.binary (some (resultRaw b rb)))
        ⟨a, .executionResult, .pending⟩ = ⟨a, .executionResult, .pending⟩ := by
      simp [stepWait, handleMessage_binary_result a b rb hvb, hba]
    have e2 : stepWait (WireData.binary (some (resultRaw b rb)))
        ⟨b, .executionResult, .pending⟩ =
        ⟨b, .executionResult, .resolved (.executionResultEv b rb)⟩ := by
      simp [stepWait, handleMessage_binary_result b b rb hvb]
    have e3 : stepWait (WireData.binary (some (resultRaw a ra)))
        ⟨a, .executionResult, .pending⟩ =
        ⟨a, .executionResult, .resolved (.executionResultEv a ra)⟩ := by
      simp [stepWait, handleMessage_binary_result a a ra hva]
    have e4 : stepWait (WireData.binary (some (resultRaw a ra)))
        ⟨b, .executionResult, .resolved (.executionResultEv b rb)⟩ =
        ⟨b, .executionResult, .resolved (.executionResultEv b rb)⟩ := rfl
    simp only [deliverAll, List.foldl, List.map, e1, e2, e3, e4]

/-- Witness for `waitResolution_correlation`: two concrete waits whose
binary result messages arrive in reverse order each resolve with their
own payload. -/
theorem waitResolution_correlation_witness :
    deliverAll
      [⟨"exec-a", .executionResult, .pending⟩,
       ⟨"exec-b", .executionResult, .pending⟩]
      [WireData.binary (some (resultRaw "exec-b" demoResultsTwo)),
       WireData.binary (some (resultRaw "exec-a" demoResultsOne))] =
      [⟨"exec-a", .executionResult,
        .resolved (.executionResultEv "exec-a" demoResultsOne)⟩,
       ⟨"exec-b", .executionResult,
        .resolved (.executionResultEv "exec-b" demoResultsTwo)⟩] :=
  waitResolution_correlation.2.2 "exec-a" "exec-b" demoResultsOne demoResultsTwo
    (by decide) (by decide) (by decide)

/-! ### Listener accounting and `close()` -/

theorem applyStep_inv (s : ConnState) (st : ConnStep) (h : ConnInv s) :
    ConnInv (applyStep s st) := by
  rcases s with ⟨ws, wl, ab, reg, rem⟩
  obtain ⟨h1, h2⟩ := h
  cases ws <;> cases st <;>
    simp [applyStep, ConnInv] at * <;> omega

theorem applySteps_inv (s : ConnState) (t : List ConnStep) (h : ConnInv s) :
    ConnInv (applySteps s t) := by
  induction t generalizing s with
  | nil => exact h
  | cons st t ih => exact ih (applyStep s st) (applyStep_inv s st h)

theorem applyStep_of_ws_false (s : ConnState) (st : ConnStep)
    (h : s.ws = false) : applyStep s st = s := by
  cases st <;> simp [applyStep, h]

theorem applySteps_of_ws_false (s : ConnState) (t : List ConnStep)
    (h : s.ws = false) : applySteps s t = s := by
  induction t with
  | nil => rfl
  | cons st t ih =>
    show applySteps (applyStep s st) t = s
    rw [applyStep_of_ws_false s st h]
    exact ih

theorem close_close (s : ConnState) : close (close s) = close s := by
  simp [close]

theorem close_registrations_le (s : ConnState) (h : ConnInv s) :
    (close s).registrations ≤ (close s).removals := by
  rcases s with ⟨ws, wl, ab, reg, rem⟩
  obtain ⟨h1, h2⟩ := h
  cases ws <;> simp [close, ConnInv] at * <;> omega

/-- C9: `close()` is idempotent, and after any `close()` — whatever
listener registrations and wait cleanups preceded it — the total
number of listener-removal calls issued against the channel is at
least the total number of registrations, the session-level signal is
aborted (so every pending wait takes its abort path and rejects with
`Execution aborted`), the channel and tracked-listener state are
cleared and stay cleared, and every subsequent `execute()` call
rejects immediately with `WebSocket is not open` without sending any
channel message. -/
theorem close_spec (s0 : ConnState) (t t2 : List ConnStep)
    (executionId statement : String) (h : ConnInv s0) :
    (close (applySteps s0 t)).registrations ≤
      (close (applySteps s0 t)).removals ∧
    (close (applySteps s0 t)).aborted = true ∧
    (close (applySteps s0 t)).ws = false ∧
    (close (applySteps s0 t)).wsListeners = 0 ∧
    close (close (applySteps s0 t)) = close (applySteps s0 t) ∧
    applySteps (close (applySteps s0 t)) t2 = close (applySteps s0 t) ∧
    executeAttempt (applySteps (close (applySteps s0 t)) t2)
        executionId statement =
      ([], .error ⟨"Error", "WebSocket is not open"⟩) ∧
    (∀ (v : Semver) (eid : String),
      (abortWait v eid).2 = .rejectedWith "Execution aborted") := by
  have hinv := applySteps_inv s0 t h
  refine ⟨close_registrations_le _ hinv, rfl, rfl, rfl, close_close _,
    applySteps_of_ws_false _ t2 rfl, ?_, fun v eid => rfl⟩
  rw [applySteps_of_ws_false _ t2 rfl]
  rfl

/-- Witness for `close_spec`: the state right after `connect`, one
further registration and one wait cleanup, then `close()`. -/
theorem close_spec_witness :
    ConnInv initConnState ∧
    (close (applySteps initConnState
        [ConnStep.register, ConnStep.cleanup])).registrations ≤
      (close (applySteps initConnState
        [ConnStep.register, ConnStep.cleanup])).removals :=
  ⟨by constructor <;> decide,
   (close_spec initConnState [ConnStep.register, ConnStep.cleanup]
      [ConnStep.cleanup] "exec-w" "SHOW SCHEMAS"
      (by constructor <;> decide)).1⟩

end Wherobots
